import Mathlib

/-!
Verification development for the coldfront user-management plugin.

The Python source is shallowly embedded: the directory client is a record of
possibly-raising stateful operations over an explicit directory state, the
registry (projects, allocations and their user associations) is a record of
lists, and each engine function from `user_management/utils.py`,
`user_management/tasks.py` and
`user_management/management/commands/sync_users.py` becomes an executable
Lean function over those states.  Python exceptions are modelled with an
`Option PyExc` outcome (`none` = normal return), and every directory-client
invocation made by the engine is recorded in a call trace so that frame
properties ("no add/remove call is issued") can be stated.
-/

namespace UserMgmt

/-- State of the external directory: which groups exist, and the membership
relation as a list of (group, user) pairs. -/
structure DirectoryState where
  groups : List String
  members : List (String × String)
  deriving Repr, DecidableEq

/-- Python exceptions relevant to the engine: the three benign sentinel
exceptions declared in `utils.py`, and `other` for any other exception. -/
inductive PyExc where
  | alreadyMember
  | notMember
  | groupDoesNotExist
  | other (msg : String)
  deriving Repr, DecidableEq

/-- One invocation of a directory-client operation, as recorded in the
engine's call trace. -/
inductive ClientCall where
  | groupExistsQ (group : String)
  | createG (group : String)
  | getMembersQ (group : String)
  | addCall (user group : String)
  | removeCall (user group : String)
  deriving Repr, DecidableEq

/-- Is this client call a directory mutation (an add or a remove of a
membership)?  Queries and group creation are not membership mutations. -/
def ClientCall.isMembershipMutation : ClientCall → Bool
  | .addCall _ _ => true
  | .removeCall _ _ => true
  | _ => false

/-- The directory-client capability (`UserManagementClient` protocol):
each operation may raise (`Except.error`) and the mutating ones also return
the boolean success flag the Python clients return. -/
structure ClientOps where
  group_exists : String → DirectoryState → Except PyExc Bool
  create_group : String → DirectoryState → Except PyExc DirectoryState
  get_group_members : String → DirectoryState → Except PyExc (List String)
  add_user_to_group : String → String → DirectoryState → Except PyExc (Bool × DirectoryState)
  remove_user_from_group : String → String → DirectoryState → Except PyExc (Bool × DirectoryState)

/-- The deterministic in-memory client (the test fake in
`tests/helpers.py`, which is also the behaviour the engine relies on from
the Grouper client): never raises, reports and mutates the directory state
directly. -/
def memClient : ClientOps where
  group_exists g s := .ok (g ∈ s.groups)
  create_group g s :=
    .ok (if g ∈ s.groups then s else { s with groups := g :: s.groups })
  get_group_members g s := .ok ((s.members.filter (fun p => p.1 = g)).map (·.2))
  add_user_to_group u g s := .ok (true, { s with members := (g, u) :: s.members })
  remove_user_from_group u g s :=
    .ok (true, { s with members := s.members.filter (fun p => ¬(p.1 = g ∧ p.2 = u)) })

/-- `utils._add_user_to_group(user, group, client)`: ensure the group
exists (creating it if absent), read its members, raise `AlreadyMemberError`
if the user is present, else add the user (the boolean the client returns is
discarded).  Returns the exception raised (if any), the directory state at
return/raise time, and the client calls performed. -/
def _add_user_to_group (C : ClientOps) (user group : String) (s : DirectoryState) :
    Option PyExc × DirectoryState × List ClientCall :=
  match C.group_exists group s with
  | .error e => (some e, s, [.groupExistsQ group])
  | .ok ex =>
    let created : Option PyExc × DirectoryState × List ClientCall :=
      if ex then (none, s, [.groupExistsQ group])
      else
        match C.create_group group s with
        | .error e => (some e, s, [.groupExistsQ group, .createG group])
        | .ok s1 => (none, s1, [.groupExistsQ group, .createG group])
    match created with
    | (some e, s1, t) => (some e, s1, t)
    | (none, s1, t) =>
      match C.get_group_members group s1 with
      | .error e => (some e, s1, t ++ [.getMembersQ group])
      | .ok mem =>
        if user ∈ mem then
          (some .alreadyMember, s1, t ++ [.getMembersQ group])
        else
          match C.add_user_to_group user group s1 with
          | .error e => (some e, s1, t ++ [.getMembersQ group, .addCall user group])
          | .ok (_, s2) => (none, s2, t ++ [.getMembersQ group, .addCall user group])

/-- `utils._remove_user_from_group(user, group, client)`: raise
`GroupDoesNotExistError` if the group is absent, `NotMemberError` if the
user is not a member, else remove (boolean result discarded). -/
def _remove_user_from_group (C : ClientOps) (user group : String) (s : DirectoryState) :
    Option PyExc × DirectoryState × List ClientCall :=
  match C.group_exists group s with
  | .error e => (some e, s, [.groupExistsQ group])
  | .ok ex =>
    if ¬ex then (some .groupDoesNotExist, s, [.groupExistsQ group])
    else
      match C.get_group_members group s with
      | .error e => (some e, s, [.groupExistsQ group, .getMembersQ group])
      | .ok mem =>
        if user ∉ mem then
          (some .notMember, s, [.groupExistsQ group, .getMembersQ group])
        else
          match C.remove_user_from_group user group s with
          | .error e =>
            (some e, s, [.groupExistsQ group, .getMembersQ group, .removeCall user group])
          | .ok (_, s2) =>
            (none, s2, [.groupExistsQ group, .getMembersQ group, .removeCall user group])

/-- The error callbacks wired by `tasks.py`, as the bare function objects
the source passes: `utils.set_project_user_status_to_pending` and
coldfront core's `set_allocation_user_status_to_error`.  Both are
one-argument functions (they need the association's pk); `tasks.py` passes
them unapplied, with no pk bound. -/
inductive Callback where
  | setProjectUserStatusToPending
  | setAllocationUserStatusToError
  deriving Repr, DecidableEq

/-- `error_callback()` as the group-set loops invoke it: a zero-argument
call.  Both wired callbacks require one positional argument, so the call
raises `TypeError` before any status change can happen. -/
def Callback.callNoArgs : Callback → Option PyExc
  | .setProjectUserStatusToPending => some (.other "TypeError")
  | .setAllocationUserStatusToError => some (.other "TypeError")

/-- Logging level of a log record emitted by the engine. -/
inductive LogLevel where
  | debug
  | info
  | warning
  | error
  deriving Repr, DecidableEq

/-- Per-group outcome of one iteration of the group-set loops in
`utils.add_user_to_group_set` / `utils.remove_user_from_group_set`.
`errorCallbackRaised` marks an iteration whose broad except-clause fired
with a supplied callback: the zero-argument invocation of the callback
itself raised, aborting the loop. -/
inductive IterOutcome where
  | ok
  | alreadyMemberWarn
  | notMemberWarn
  | groupMissingWarn
  | errorHandled (callbackInvoked : Bool)
  | errorCallbackRaised
  deriving Repr, DecidableEq

/-- Result of running one of the group-set loops: final directory state,
client-call trace, the per-group outcome in iteration order, the log, the
callbacks that ran to completion, and — when the loop aborted because the
invoked callback itself raised — the exception that propagates to the
caller. -/
structure SetRun where
  state : DirectoryState
  calls : List ClientCall
  outcomes : List (String × IterOutcome)
  log : List (LogLevel × String)
  callbackRuns : List Callback
  raised : Option PyExc := none
  deriving Repr, DecidableEq

/-- Classification of one add-loop iteration from the exception (if any)
of `_add_user_to_group`: the outcome, the log record, the callbacks run to
completion, and the exception propagating out of the except-clause.  For a
benign `AlreadyMemberError` the loop warns and continues; for any other
exception it logs at error level and, when a callback was supplied, calls
`error_callback()` with zero arguments — which for the wired one-argument
callbacks raises `TypeError`, and that exception propagates. -/
def addStepClass (error_callback : Option Callback) (user g : String) :
    Option PyExc → IterOutcome × (LogLevel × String) × List Callback × Option PyExc
  | none => (.ok, (.info, "Added user " ++ user ++ " to group " ++ g ++ " successfully"), [], none)
  | some .alreadyMember =>
    (.alreadyMemberWarn, (.warning, "User " ++ user ++ " is already a member of group " ++ g),
     [], none)
  | some _ =>
    match error_callback with
    | none => (.errorHandled false, (.error, "Failed adding user " ++ user ++ " to group " ++ g),
        [], none)
    | some cb =>
      match cb.callNoArgs with
      | some exc =>
        (.errorCallbackRaised, (.error, "Failed adding user " ++ user ++ " to group " ++ g),
         [], some exc)
      | none =>
        (.errorHandled true, (.error, "Failed adding user " ++ user ++ " to group " ++ g),
         [cb], none)

/-- Classification of one remove-loop iteration, with `NotMemberError` and
`GroupDoesNotExistError` as the benign warn-and-continue cases. -/
def removeStepClass (error_callback : Option Callback) (user g : String) :
    Option PyExc → IterOutcome × (LogLevel × String) × List Callback × Option PyExc
  | none =>
    (.ok, (.info, "Removed user " ++ user ++ " from group " ++ g ++ " successfully"), [], none)
  | some .notMember =>
    (.notMemberWarn, (.warning, "User " ++ user ++ " is not a member of group " ++ g), [], none)
  | some .groupDoesNotExist =>
    (.groupMissingWarn, (.warning, "Group " ++ g ++ " does not exist in grouper"), [], none)
  | some _ =>
    match error_callback with
    | none =>
      (.errorHandled false, (.error, "Failed removing user " ++ user ++ " from group " ++ g),
       [], none)
    | some cb =>
      match cb.callNoArgs with
      | some exc =>
        (.errorCallbackRaised, (.error, "Failed removing user " ++ user ++ " from group " ++ g),
         [], some exc)
      | none =>
        (.errorHandled true, (.error, "Failed removing user " ++ user ++ " from group " ++ g),
         [cb], none)

/-- `utils.add_user_to_group_set(user, groups, error_callback)`: for each
group, try `_add_user_to_group`; `AlreadyMemberError` is caught and logged
at warning level and the loop continues; any other exception is caught and
logged at error level, and then `error_callback()` is invoked with zero
arguments when a callback was supplied — since the wired callbacks take
one argument, that invocation raises `TypeError`, which propagates and
aborts the loop (`raised` records it); with no callback the loop
continues. -/
def add_user_to_group_set (C : ClientOps) (user : String) (groups : List String)
    (error_callback : Option Callback) (s : DirectoryState) : SetRun :=
  match groups with
  | [] => { state := s, calls := [], outcomes := [], log := [], callbackRuns := [] }
  | g :: rest =>
    let step := _add_user_to_group C user g s
    let cls := addStepClass error_callback user g step.1
    match cls.2.2.2 with
    | some exc =>
      { state := step.2.1
        calls := step.2.2
        outcomes := [(g, cls.1)]
        log := [cls.2.1]
        callbackRuns := []
        raised := some exc }
    | none =>
      let r := add_user_to_group_set C user rest error_callback step.2.1
      { state := r.state
        calls := step.2.2 ++ r.calls
        outcomes := (g, cls.1) :: r.outcomes
        log := cls.2.1 :: r.log
        callbackRuns := cls.2.2.1 ++ r.callbackRuns
        raised := r.raised }

/-- `utils.remove_user_from_group_set(user, groups, error_callback)`: for
each group, try `_remove_user_from_group`; `NotMemberError` and
`GroupDoesNotExistError` are caught and logged at warning level and the
loop continues; any other exception is caught and logged at error level,
and then `error_callback()` is invoked with zero arguments when a callback
was supplied — since the wired callbacks take one argument, that
invocation raises `TypeError`, which propagates and aborts the loop; with
no callback the loop continues. -/
def remove_user_from_group_set (C : ClientOps) (user : String) (groups : List String)
    (error_callback : Option Callback) (s : DirectoryState) : SetRun :=
  match groups with
  | [] => { state := s, calls := [], outcomes := [], log := [], callbackRuns := [] }
  | g :: rest =>
    let step := _remove_user_from_group C user g s
    let cls := removeStepClass error_callback user g step.1
    match cls.2.2.2 with
    | some exc =>
      { state := step.2.1
        calls := step.2.2
        outcomes := [(g, cls.1)]
        log := [cls.2.1]
        callbackRuns := []
        raised := some exc }
    | none =>
      let r := remove_user_from_group_set C user rest error_callback step.2.1
      { state := r.state
        calls := step.2.2 ++ r.calls
        outcomes := (g, cls.1) :: r.outcomes
        log := cls.2.1 :: r.log
        callbackRuns := cls.2.2.1 ++ r.callbackRuns
        raised := r.raised }

/-! ## Registry model (coldfront projects/allocations and their users) -/

/-- A coldfront project: primary key, lifecycle status name, PI username and
its attribute rows as (attribute type name, value) pairs. -/
structure ProjectRec where
  pk : Nat
  title : String
  status : String
  piUsername : String
  attributes : List (String × String)
  deriving Repr, DecidableEq

/-- A project-user association with its own status. -/
structure ProjectUserRec where
  pk : Nat
  projectPk : Nat
  username : String
  status : String
  deriving Repr, DecidableEq

/-- A coldfront allocation: primary key, resource name, status name and
attribute rows as (attribute type name, value) pairs. -/
structure AllocationRec where
  pk : Nat
  resourceName : String
  status : String
  attributes : List (String × String)
  deriving Repr, DecidableEq

/-- An allocation-user association with its own status. -/
structure AllocationUserRec where
  pk : Nat
  allocationPk : Nat
  username : String
  status : String
  deriving Repr, DecidableEq

/-- The registry: the tables the plugin reads and writes. -/
structure Registry where
  projects : List ProjectRec
  projectUsers : List ProjectUserRec
  allocations : List AllocationRec
  allocationUsers : List AllocationUserRec
  deriving Repr, DecidableEq

/-- coldfront's `get_attribute_list(name)`: the values of the attribute rows
whose type has the given name, in row order. -/
def getAttributeList (attr : String) (attrs : List (String × String)) : List String :=
  (attrs.filter (fun a => a.1 = attr)).map (·.2)

/-- A Python `set(...)` built from a list, modelled as the deduplicated
list (iteration order of a Python set is arbitrary; we fix first-occurrence
order). -/
def pySet (l : List String) : List String := l.dedup

/-- Python set difference `set(a) - set(b)`, as a deduplicated list. -/
def pySetDiff (a b : List String) : List String := (a.dedup).filter (fun x => x ∉ b)

/-- `utils.get_project_attribute_values_set(project, attribute_name)`: the
set of values of the named attribute on the project. -/
def get_project_attribute_values_set (p : ProjectRec) (attr : String) : List String :=
  pySet (getAttributeList attr p.attributes)

/-- `utils.collect_other_allocation_user_groups(user, attr, current_pk)`:
the union of the named attribute's values over all allocations other than
the current one that are Active, have at least one row of the attribute,
and on which the user has an Active allocation-user association. -/
def collect_other_allocation_user_groups (R : Registry) (user : String) (attr : String)
    (current_allocation_id : Nat) : List String :=
  pySet ((R.allocations.filter fun a =>
      a.pk ≠ current_allocation_id ∧ a.status = "Active" ∧
      (R.allocationUsers.any fun au =>
        au.allocationPk = a.pk ∧ au.username = user ∧ au.status = "Active") ∧
      a.attributes.any (fun p => p.1 = attr)).flatMap
    (fun a => getAttributeList attr a.attributes))

/-- `utils.collect_other_project_user_groups(user, attr, current_pk)`:
same as the allocation variant, over projects and project-user
associations. -/
def collect_other_project_user_groups (R : Registry) (user : String) (attr : String)
    (current_project_id : Nat) : List String :=
  pySet ((R.projects.filter fun p =>
      p.pk ≠ current_project_id ∧ p.status = "Active" ∧
      (R.projectUsers.any fun pu =>
        pu.projectPk = p.pk ∧ pu.username = user ∧ pu.status = "Active") ∧
      p.attributes.any (fun a => a.1 = attr)).flatMap
    (fun p => getAttributeList attr p.attributes))

/-- `utils.set_project_user_status_to_pending(project_user_pk)`: set the
status of that project-user association to Pending. -/
def set_project_user_status_to_pending (pk : Nat) (R : Registry) : Registry :=
  { R with projectUsers :=
      R.projectUsers.map fun pu => if pu.pk = pk then { pu with status := "Pending" } else pu }

/-- coldfront core's `set_allocation_user_status_to_error(allocation_user_pk)`
(external collaborator imported by `tasks.py`): set the status of that
allocation-user association to Error. -/
def set_allocation_user_status_to_error (pk : Nat) (R : Registry) : Registry :=
  { R with allocationUsers :=
      R.allocationUsers.map fun au => if au.pk = pk then { au with status := "Error" } else au }

/-- Status of the project-user association with the given pk, if present. -/
def projectUserStatus (R : Registry) (pk : Nat) : Option String :=
  (R.projectUsers.find? (fun pu => pu.pk = pk)).map (·.status)

/-- Status of the allocation-user association with the given pk, if present. -/
def allocationUserStatus (R : Registry) (pk : Nat) : Option String :=
  (R.allocationUsers.find? (fun au => au.pk = pk)).map (·.status)

/-! ## Event-driven removal tasks (`tasks.py`) -/

/-- Outcome tag of a single-user removal task.  The `noop` constructors are
the logged early returns of the Python function; `ran` carries the
group-set run actually performed. -/
inductive RemoveUserResult where
  | noopEntityStatus
  | noopUserStatus
  | noopNoGroups
  | noopAllProtected
  | ran (run : SetRun)
  deriving Repr, DecidableEq

/-- Client calls performed by a single-user removal task. -/
def RemoveUserResult.taskCalls : RemoveUserResult → List ClientCall
  | .ran r => r.calls
  | _ => []

/-- `tasks.remove_allocation_user_from_group(user_pk)`: no-op unless the
allocation status is Active/Pending/Inactive (Renewed) and the
allocation-user status is exactly Removed; removes the user from the
allocation's declared groups minus the groups collected from the user's
other active allocations, with coldfront's error-status callback.
`none` models the `DoesNotExist` exception of `.objects.get`. -/
def remove_allocation_user_from_group (R : Registry) (C : ClientOps) (attr : String)
    (user_pk : Nat) (s : DirectoryState) : Option (RemoveUserResult × DirectoryState) :=
  match R.allocationUsers.find? (fun au => au.pk = user_pk) with
  | none => none
  | some au =>
    match R.allocations.find? (fun a => a.pk = au.allocationPk) with
    | none => none
    | some alloc =>
      if alloc.status ∉ (["Active", "Pending", "Inactive (Renewed)"] : List String) then
        some (.noopEntityStatus, s)
      else if au.status ≠ "Removed" then
        some (.noopUserStatus, s)
      else
        let groups := getAttributeList attr alloc.attributes
        if groups.length = 0 then some (.noopNoGroups, s)
        else
          let other_groups := collect_other_allocation_user_groups R au.username attr alloc.pk
          let group_diff := pySetDiff groups other_groups
          if group_diff = [] then some (.noopAllProtected, s)
          else
            let run := remove_user_from_group_set C au.username group_diff
              (some .setAllocationUserStatusToError) s
            some (.ran run, run.state)

/-- `tasks.remove_project_user_from_group(user_pk)`: no-op if the project
status is Archived (any other status proceeds) or the project-user status
is not exactly Removed; removes the user from the project's declared
groups minus the groups collected from the user's other active projects,
with the pending-status callback. -/
def remove_project_user_from_group (R : Registry) (C : ClientOps) (attr : String)
    (user_pk : Nat) (s : DirectoryState) : Option (RemoveUserResult × DirectoryState) :=
  match R.projectUsers.find? (fun pu => pu.pk = user_pk) with
  | none => none
  | some pu =>
    match R.projects.find? (fun p => p.pk = pu.projectPk) with
    | none => none
    | some project =>
      if project.status ∈ (["Archived"] : List String) then
        some (.noopEntityStatus, s)
      else if pu.status ≠ "Removed" then
        some (.noopUserStatus, s)
      else
        let groups := getAttributeList attr project.attributes
        if groups.length = 0 then some (.noopNoGroups, s)
        else
          let other_groups := collect_other_project_user_groups R pu.username attr project.pk
          let group_diff := pySetDiff groups other_groups
          if group_diff = [] then some (.noopAllProtected, s)
          else
            let run := remove_user_from_group_set C pu.username group_diff
              (some .setProjectUserStatusToPending) s
            some (.ran run, run.state)

/-- One user's treatment inside the archive cascade. -/
inductive UserRemoval where
  | skippedAllProtected (username : String)
  | ran (username : String) (cb : Option Callback) (run : SetRun)
  deriving Repr, DecidableEq

/-- The exception escaping one user's pass, if any (a group-set run aborts
when its error callback's zero-argument invocation raises). -/
def UserRemoval.raised : UserRemoval → Option PyExc
  | .skippedAllProtected _ => none
  | .ran _ _ run => run.raised

/-- Loop body of `tasks.remove_all_project_users_from_groups`: apply the
protected-group exclusion for one user and, if any group remains, run the
group-set removal with the given callback. -/
def removeOneProjectUser (C : ClientOps) (R : Registry) (attr : String)
    (groups : List String) (projectPk : Nat) (username : String)
    (cb : Option Callback) (s : DirectoryState) : UserRemoval × DirectoryState :=
  let other_groups := collect_other_project_user_groups R username attr projectPk
  let group_diff := pySetDiff groups other_groups
  if group_diff = [] then (.skippedAllProtected username, s)
  else
    let run := remove_user_from_group_set C username group_diff cb s
    (.ran username cb run, run.state)

/-- The member loop of the archive cascade, threading the directory state.
When one member's pass raises (the wired callback's zero-argument
invocation), the exception propagates: the loop stops and later members
are not visited. -/
def removeAllGo (C : ClientOps) (R : Registry) (attr : String) (groups : List String)
    (projectPk : Nat) :
    List ProjectUserRec → DirectoryState → List UserRemoval × DirectoryState × Option PyExc
  | [], s => ([], s, none)
  | pu :: rest, s =>
    let step := removeOneProjectUser C R attr groups projectPk pu.username
      (some .setProjectUserStatusToPending) s
    match step.1.raised with
    | some e => ([step.1], step.2, some e)
    | none =>
      let r := removeAllGo C R attr groups projectPk rest step.2
      (step.1 :: r.1, r.2.1, r.2.2)

/-- Outcome of the archive cascade.  `aborted` records a cascade cut short
by an exception escaping a member's pass: the PI is never reached. -/
inductive RemoveAllResult where
  | noopNotArchived
  | noopNoGroups
  | cascade (memberActions : List UserRemoval) (piAction : UserRemoval)
  | aborted (memberActions : List UserRemoval) (e : PyExc)
  deriving Repr, DecidableEq

/-- `tasks.remove_all_project_users_from_groups(project_pk)`: only when the
project status is exactly Archived; iterates the project-user associations
of the project (regardless of their status) with the pending-status
callback, then the PI with no callback.  An exception escaping a member's
pass propagates out of the task, aborting the cascade before later
members and the PI. -/
def remove_all_project_users_from_groups (R : Registry) (C : ClientOps) (attr : String)
    (project_pk : Nat) (s : DirectoryState) : Option (RemoveAllResult × DirectoryState) :=
  match R.projects.find? (fun p => p.pk = project_pk) with
  | none => none
  | some project =>
    if project.status ≠ "Archived" then some (.noopNotArchived, s)
    else
      let groups := pySet (getAttributeList attr project.attributes)
      if groups = [] then some (.noopNoGroups, s)
      else
        let project_users := R.projectUsers.filter (fun pu => pu.projectPk = project_pk)
        let members := removeAllGo C R attr groups project_pk project_users s
        match members.2.2 with
        | some e => some (.aborted members.1 e, members.2.1)
        | none =>
          let piStep := removeOneProjectUser C R attr groups project_pk
            project.piUsername none members.2.1
          some (.cascade members.1 piStep.1, piStep.2)

/-! ## Batch sync command (`management/commands/sync_users.py`) -/

/-- One collated registry record: entity alignment (`true` = project),
display name, primary key, declared groups and member usernames. -/
structure EntityInfo where
  alignment : Bool
  name : String
  id : Nat
  groups : List String
  users : List String
  deriving Repr, DecidableEq

/-- Does a project qualify for the base queryset of
`collate_project_user_data` (Active and at least one row of the group
attribute)? -/
def projectInBaseQuery (attr : String) (p : ProjectRec) : Prop :=
  p.status = "Active" ∧ p.attributes.any (fun a => a.1 = attr) = true

instance (attr : String) (p : ProjectRec) : Decidable (projectInBaseQuery attr p) := by
  unfold projectInBaseQuery; infer_instance

/-- Does the optional group filter reject an entity with these declared
groups (`if group_specified and group_specified not in groups`)? -/
def groupFilterSkips (group_specified : Option String) (groups : List String) : Prop :=
  match group_specified with
  | some gs => gs ∉ groups
  | none => False

instance (gf : Option String) (groups : List String) : Decidable (groupFilterSkips gf groups) := by
  unfold groupFilterSkips; cases gf <;> infer_instance

/-- The record built for one project inside the collation loop. -/
def projectInfo (R : Registry) (attr : String) (p : ProjectRec) : EntityInfo :=
  { alignment := true
    name := p.title
    id := p.pk
    groups := get_project_attribute_values_set p attr
    users := ((R.projectUsers.filter fun pu =>
        pu.projectPk = p.pk ∧ pu.status = "Active").map (·.username)) ++ [p.piUsername] }

/-- Loop body of `Command.collate_project_user_data`: walk the base
queryset; skip entities rejected by the group filter or with no groups;
append the first surviving entity's record and return immediately (the
`return` statement sits inside the `for` loop).  Falling off the loop
returns Python `None`, modelled as `none`. -/
def collateProjectGo (R : Registry) (attr : String) (group_specified : Option String) :
    List ProjectRec → Option (List EntityInfo)
  | [] => none
  | p :: rest =>
    let groups := get_project_attribute_values_set p attr
    if groupFilterSkips group_specified groups then
      collateProjectGo R attr group_specified rest
    else if groups = [] then collateProjectGo R attr group_specified rest
    else some [projectInfo R attr p]

/-- `Command.collate_project_user_data(group_attribute_name, group)`. -/
def collate_project_user_data (R : Registry) (attr : String)
    (group_specified : Option String) : Option (List EntityInfo) :=
  collateProjectGo R attr group_specified (R.projects.filter (projectInBaseQuery attr ·))

/-- Does an allocation qualify for the base queryset of
`collate_allocation_user_data`? -/
def allocationInBaseQuery (attr : String) (a : AllocationRec) : Prop :=
  a.status = "Active" ∧ a.attributes.any (fun p => p.1 = attr) = true

instance (attr : String) (a : AllocationRec) : Decidable (allocationInBaseQuery attr a) := by
  unfold allocationInBaseQuery; infer_instance

/-- The record built for one allocation inside the collation loop (no PI is
appended at the allocation level). -/
def allocationInfo (R : Registry) (attr : String) (a : AllocationRec) : EntityInfo :=
  { alignment := false
    name := a.resourceName
    id := a.pk
    groups := pySet (getAttributeList attr a.attributes)
    users := (R.allocationUsers.filter fun au =>
        au.allocationPk = a.pk ∧ au.status = "Active").map (·.username) }

/-- Loop body of `Command.collate_allocation_user_data`, with the same
return-inside-the-loop shape as the project variant. -/
def collateAllocationGo (R : Registry) (attr : String) (group_specified : Option String) :
    List AllocationRec → Option (List EntityInfo)
  | [] => none
  | a :: rest =>
    let groups := pySet (getAttributeList attr a.attributes)
    if groupFilterSkips group_specified groups then
      collateAllocationGo R attr group_specified rest
    else if groups = [] then collateAllocationGo R attr group_specified rest
    else some [allocationInfo R attr a]

/-- `Command.collate_allocation_user_data(group_attribute_name, group)`. -/
def collate_allocation_user_data (R : Registry) (attr : String)
    (group_specified : Option String) : Option (List EntityInfo) :=
  collateAllocationGo R attr group_specified (R.allocations.filter (allocationInBaseQuery attr ·))

/-- `Command.collate_external_user_data(group_set)`: query the directory
for each group's members; a failing query is reported and skipped. -/
def collate_external_user_data (C : ClientOps) (group_set : List String)
    (s : DirectoryState) : List (String × List String) × List ClientCall :=
  match group_set with
  | [] => ([], [])
  | g :: rest =>
    let r := collate_external_user_data C rest s
    match C.get_group_members g s with
    | .error _ => (r.1, .getMembersQ g :: r.2)
    | .ok mem => ((g, mem) :: r.1, .getMembersQ g :: r.2)

/-- A Difference Record for one (entity, group) pair. -/
structure DiffRec where
  alignment : Bool
  name : String
  id : Nat
  group : String
  missing_from_external : List String
  missing_from_coldfront : List String
  deriving Repr, DecidableEq

/-- Lookup in the dict `{group: set(members)}` built from the external
query results (a Python dict comprehension keeps the last binding), with
the empty set as default. -/
def externalGroupDict (external : List (String × List String)) (g : String) : List String :=
  match external.reverse.find? (fun p => p.1 = g) with
  | none => []
  | some p => pySet p.2

/-- `Command.compare_coldfront_to_external`: for every collated entity and
every group it declares, compute the two set differences against the
directory's membership and emit a record iff either is non-empty. -/
def compare_coldfront_to_external (entries : List EntityInfo)
    (external : List (String × List String)) : List DiffRec :=
  entries.flatMap fun e =>
    e.groups.filterMap fun g =>
      let external_members := externalGroupDict external g
      let missing_from_external := pySetDiff e.users external_members
      let missing_from_coldfront := pySetDiff external_members e.users
      if missing_from_external ≠ [] ∨ missing_from_coldfront ≠ [] then
        some { alignment := e.alignment, name := e.name, id := e.id, group := g
               missing_from_external := missing_from_external
               missing_from_coldfront := missing_from_coldfront }
      else none

/-- Does the username filter skip this user? -/
def skipUser (username_filter : Option String) (u : String) : Prop :=
  match username_filter with
  | some v => u ≠ v
  | none => False

instance (uf : Option String) (u : String) : Decidable (skipUser uf u) := by
  unfold skipUser; cases uf <;> infer_instance

/-- The `sync_to` add loop over one record's `missing_from_external`:
each add call is issued (unless the username filter skips the user) and an
`IOError` from the client is caught and reported. -/
def syncToAdds (C : ClientOps) (uf : Option String) (group : String) :
    List String → DirectoryState → DirectoryState × List ClientCall
  | [], s => (s, [])
  | u :: rest, s =>
    if skipUser uf u then syncToAdds C uf group rest s
    else
      match C.add_user_to_group u group s with
      | .error _ =>
        let r := syncToAdds C uf group rest s
        (r.1, .addCall u group :: r.2)
      | .ok (_, s1) =>
        let r := syncToAdds C uf group rest s1
        (r.1, .addCall u group :: r.2)

/-- The `sync_to` remove loop over one record's `missing_from_coldfront`. -/
def syncToRemoves (C : ClientOps) (uf : Option String) (group : String) :
    List String → DirectoryState → DirectoryState × List ClientCall
  | [], s => (s, [])
  | u :: rest, s =>
    if skipUser uf u then syncToRemoves C uf group rest s
    else
      match C.remove_user_from_group u group s with
      | .error _ =>
        let r := syncToRemoves C uf group rest s
        (r.1, .removeCall u group :: r.2)
      | .ok (_, s1) =>
        let r := syncToRemoves C uf group rest s1
        (r.1, .removeCall u group :: r.2)

/-- The `sync_to` branch of `Command.handle`: apply every Difference
Record to the directory. -/
def syncToDirectory (C : ClientOps) (uf : Option String) :
    List DiffRec → DirectoryState → DirectoryState × List ClientCall
  | [], s => (s, [])
  | d :: rest, s =>
    let a := syncToAdds C uf d.group d.missing_from_external s
    let b := syncToRemoves C uf d.group d.missing_from_coldfront a.1
    let r := syncToDirectory C uf rest b.1
    (r.1, a.2 ++ b.2 ++ r.2)

/-- The next free primary key for a created project-user association. -/
def freshProjectUserPk (R : Registry) : Nat :=
  (R.projectUsers.map (·.pk)).foldr max 0 + 1

/-- The next free primary key for a created allocation-user association. -/
def freshAllocationUserPk (R : Registry) : Nat :=
  (R.allocationUsers.map (·.pk)).foldr max 0 + 1

/-- The `sync_from` handling of one project-level Difference Record:
create an Active association for each username missing from coldfront and
set the association status to Removed for each username missing from the
directory.  `none` models the uncaught `DoesNotExist` of
`Project.objects.get`. -/
def applyProjectDiff (uf : Option String) (d : DiffRec) (R : Registry) : Option Registry :=
  match R.projects.find? (fun p => p.pk = d.id) with
  | none => none
  | some p =>
    let R1 := d.missing_from_coldfront.foldl (fun Racc u =>
      if skipUser uf u then Racc
      else { Racc with projectUsers :=
        Racc.projectUsers ++ [⟨freshProjectUserPk Racc, p.pk, u, "Active"⟩] }) R
    some { R1 with projectUsers := R1.projectUsers.map fun pu =>
      if pu.projectPk = p.pk ∧ pu.username ∈ d.missing_from_external ∧ ¬skipUser uf pu.username
      then { pu with status := "Removed" } else pu }

/-- The `sync_from` handling of one allocation-level Difference Record. -/
def applyAllocationDiff (uf : Option String) (d : DiffRec) (R : Registry) : Option Registry :=
  match R.allocations.find? (fun a => a.pk = d.id) with
  | none => none
  | some a =>
    let R1 := d.missing_from_coldfront.foldl (fun Racc u =>
      if skipUser uf u then Racc
      else { Racc with allocationUsers :=
        Racc.allocationUsers ++ [⟨freshAllocationUserPk Racc, a.pk, u, "Active"⟩] }) R
    some { R1 with allocationUsers := R1.allocationUsers.map fun au =>
      if au.allocationPk = a.pk ∧ au.username ∈ d.missing_from_external ∧ ¬skipUser uf au.username
      then { au with status := "Removed" } else au }

/-- The `sync_from` branch of `Command.handle`: mutate the registry from
every Difference Record. -/
def syncFromDirectory (uf : Option String) : List DiffRec → Registry → Option Registry
  | [], R => some R
  | d :: rest, R =>
    match (if d.alignment then applyProjectDiff uf d R else applyAllocationDiff uf d R) with
    | none => none
    | some R1 => syncFromDirectory uf rest R1

/-- Options of the `sync_users` command. -/
structure SyncOptions where
  username : Option String
  group : Option String
  dry_run : Bool
  sync_to : Bool
  deriving Repr, DecidableEq

/-- Result of one full `Command.handle` pass. -/
structure HandleRun where
  differences : List DiffRec
  registry : Registry
  directory : DirectoryState
  calls : List ClientCall
  deriving Repr, DecidableEq

/-- `Command.handle`: collate registry records (project- or
allocation-level), query the directory for the union of declared groups,
diff, then either report only (`dry_run`), push the differences to the
directory (`sync_to`), or pull them into the registry.  `none` models an
uncaught exception (collation returning `None`, or a failed registry
lookup in the pull branch). -/
def handle (R : Registry) (C : ClientOps) (attr : String)
    (manageAtProjectLevel : Bool) (opts : SyncOptions) (s : DirectoryState) :
    Option HandleRun :=
  match (if manageAtProjectLevel then collate_project_user_data R attr opts.group
         else collate_allocation_user_data R attr opts.group) with
  | none => none
  | some entries =>
    let group_set := pySet (entries.flatMap (·.groups))
    let ext := collate_external_user_data C group_set s
    let differences := compare_coldfront_to_external entries ext.1
    if opts.dry_run then
      some { differences := differences, registry := R, directory := s, calls := ext.2 }
    else if opts.sync_to then
      let m := syncToDirectory C opts.username differences s
      some { differences := differences, registry := R, directory := m.1, calls := ext.2 ++ m.2 }
    else
      match syncFromDirectory opts.username differences R with
      | none => none
      | some R1 =>
        some { differences := differences, registry := R1, directory := s, calls := ext.2 }

/-- A client none of whose operations ever raises. -/
structure ExcFree (C : ClientOps) : Prop where
  group_exists : ∀ g s, ∃ b, C.group_exists g s = .ok b
  create_group : ∀ g s, ∃ s1, C.create_group g s = .ok s1
  get_group_members : ∀ g s, ∃ m, C.get_group_members g s = .ok m
  add_user_to_group : ∀ u g s, ∃ r, C.add_user_to_group u g s = .ok r
  remove_user_from_group : ∀ u g s, ∃ r, C.remove_user_from_group u g s = .ok r

/-- A client whose mutation operations report failure through their boolean
result without raising and without changing the directory — the behaviour
of the Grouper client when the underlying call hits an `IOError`. -/
def falseClient : ClientOps :=
  { memClient with
    add_user_to_group := fun _ _ s => .ok (false, s)
    remove_user_from_group := fun _ _ s => .ok (false, s) }

/-- A client whose every operation raises an unexpected (non-sentinel)
exception — a directory whose transport is down. -/
def boomClient : ClientOps where
  group_exists _ _ := .error (.other "boom")
  create_group _ _ := .error (.other "boom")
  get_group_members _ _ := .error (.other "boom")
  add_user_to_group _ _ _ := .error (.other "boom")
  remove_user_from_group _ _ _ := .error (.other "boom")

/-- A small concrete directory used to instantiate theorems: group `g1`
with members `b` and `c`. -/
def dirFix : DirectoryState := { groups := ["g1"], members := [("g1", "b"), ("g1", "c")] }

/-- Fixture: user `u` holds allocation 1 (groups g1, g2, association
Removed) and allocation 2 (group g1, association Active), both Active. -/
def regC1 : Registry :=
  { projects := [], projectUsers := []
    allocations := [⟨1, "r1", "Active", [("ad_group", "g1"), ("ad_group", "g2")]⟩,
                    ⟨2, "r2", "Active", [("ad_group", "g1")]⟩]
    allocationUsers := [⟨10, 1, "u", "Removed"⟩, ⟨11, 2, "u", "Active"⟩] }

/-- Fixture directory for the shared-group scenario. -/
def dirC1 : DirectoryState :=
  { groups := ["g1", "g2"], members := [("g1", "u"), ("g2", "u")] }

/-- Fixture: a project whose status is New — outside the status set the
spec names for removal — with one Removed association. -/
def projC4 : ProjectRec := ⟨1, "P1", "New", "pi", [("ad_group", "g1")]⟩

/-- Registry for the removal-precondition counterexample. -/
def regC4 : Registry :=
  { projects := [projC4], projectUsers := [⟨10, 1, "b", "Removed"⟩]
    allocations := [], allocationUsers := [] }

/-- The group-set run the project-level removal performs on `regC4`. -/
def runC4 : SetRun :=
  { state := { groups := ["g1"], members := [("g1", "c")] }
    calls := [.groupExistsQ "g1", .getMembersQ "g1", .removeCall "b" "g1"]
    outcomes := [("g1", .ok)]
    log := [(.info, "Removed user b from group g1 successfully")]
    callbackRuns := [] }

/-- Fixture: an Archived project with two member associations and a PI. -/
def projC6 : ProjectRec := ⟨3, "P3", "Archived", "pi", [("ad_group", "g1")]⟩

/-- Registry for the archive-cascade evaluation. -/
def regC6 : Registry :=
  { projects := [projC6], projectUsers := [⟨20, 3, "m1", "Active"⟩, ⟨21, 3, "m2", "Active"⟩]
    allocations := [], allocationUsers := [] }

/-- The first member's pass on `regC6` against a raising client: the
broad except-clause fires, the wired callback's zero-argument invocation
raises `TypeError`, and the pass aborts. -/
def memberAbortC6 : UserRemoval :=
  .ran "m1" (some .setProjectUserStatusToPending)
    { state := { groups := [], members := [] }
      calls := [.groupExistsQ "g1"]
      outcomes := [("g1", .errorCallbackRaised)]
      log := [(.error, "Failed removing user m1 from group g1")]
      callbackRuns := []
      raised := some (.other "TypeError") }

/-- Fixture: an Active project declaring g1, member `a`, PI `b`. -/
def projC9 : ProjectRec := ⟨1, "P1", "Active", "b", [("ad_group", "g1")]⟩

/-- Registry for the dry-run witness. -/
def regC9 : Registry :=
  { projects := [projC9], projectUsers := [⟨10, 1, "a", "Active"⟩]
    allocations := [], allocationUsers := [] }

/-- The Difference Record the dry run computes on `regC9`. -/
def diffC9 : DiffRec :=
  { alignment := true, name := "P1", id := 1, group := "g1"
    missing_from_external := ["a"], missing_from_coldfront := ["c"] }

/-- The full result of the dry-run pass on `regC9`. -/
def handleRunC9 : HandleRun :=
  { differences := [diffC9], registry := regC9, directory := dirFix
    calls := [.getMembersQ "g1"] }

/-- Does a project survive the in-loop checks of the collation (group
filter passes and at least one declared group)? -/
def projectQualifiesP (attr : String) (gf : Option String) (p : ProjectRec) : Prop :=
  ¬groupFilterSkips gf (get_project_attribute_values_set p attr) ∧
    get_project_attribute_values_set p attr ≠ []

instance (attr : String) (gf : Option String) (p : ProjectRec) :
    Decidable (projectQualifiesP attr gf p) := by
  unfold projectQualifiesP; infer_instance

/-- Does an allocation survive the in-loop checks of the collation? -/
def allocationQualifiesP (attr : String) (gf : Option String) (a : AllocationRec) : Prop :=
  ¬groupFilterSkips gf (pySet (getAttributeList attr a.attributes)) ∧
    pySet (getAttributeList attr a.attributes) ≠ []

instance (attr : String) (gf : Option String) (a : AllocationRec) :
    Decidable (allocationQualifiesP attr gf a) := by
  unfold allocationQualifiesP; infer_instance

/-! ## Helper lemmas -/

theorem mem_pySet {x : String} {l : List String} : x ∈ pySet l ↔ x ∈ l := by
  simp [pySet]

theorem mem_pySetDiff {x : String} {a b : List String} :
    x ∈ pySetDiff a b ↔ x ∈ a ∧ x ∉ b := by
  simp [pySetDiff, List.mem_filter]

theorem mem_memClient_members {u g : String} {s : DirectoryState} :
    u ∈ ((s.members.filter (fun p => p.1 = g)).map (·.2)) ↔ (g, u) ∈ s.members := by
  simp only [List.mem_map, List.mem_filter, decide_eq_true_eq]
  constructor
  · rintro ⟨⟨a, b⟩, ⟨hmem, ha⟩, hb⟩
    simp only at ha hb
    subst ha; subst hb; exact hmem
  · intro h; exact ⟨(g, u), ⟨h, rfl⟩, rfl⟩

/-- Any membership-removal call issued by `_remove_user_from_group` targets
exactly the requested user and group. -/
theorem removeCall_of_remove_single {C : ClientOps} {u g v h : String} {s : DirectoryState} :
    ClientCall.removeCall v h ∈ (_remove_user_from_group C u g s).2.2 → v = u ∧ h = g := by
  unfold _remove_user_from_group
  repeat' split
  all_goals intro hm
  all_goals simp_all

/-- Membership-removal calls issued by `remove_user_from_group_set` are for
the requested user and come only from the supplied group list (whether or
not the loop runs to completion). -/
theorem removeCall_of_remove_set {C : ClientOps} {u v h : String} {cb : Option Callback}
    {s : DirectoryState} {groups : List String} :
    ClientCall.removeCall v h ∈ (remove_user_from_group_set C u groups cb s).calls →
      v = u ∧ h ∈ groups := by
  induction groups generalizing s with
  | nil => simp [remove_user_from_group_set]
  | cons g rest ih =>
    rw [remove_user_from_group_set]
    rcases habort : (removeStepClass cb u g (_remove_user_from_group C u g s).1).2.2.2
      with _ | exc
    · simp only [habort, List.mem_append, List.mem_cons]
      rintro (hmem | hmem)
      · rcases removeCall_of_remove_single hmem with ⟨hv, hg⟩
        exact ⟨hv, Or.inl hg⟩
      · rcases ih hmem with ⟨hv, hg⟩
        exact ⟨hv, Or.inr hg⟩
    · simp only [habort]
      intro hmem
      rcases removeCall_of_remove_single hmem with ⟨hv, hg⟩
      exact ⟨hv, List.mem_cons.mpr (Or.inl hg)⟩

theorem memClient_exc_free : ExcFree memClient :=
  ⟨fun _ _ => ⟨_, rfl⟩, fun _ _ => ⟨_, rfl⟩, fun _ _ => ⟨_, rfl⟩,
   fun _ _ _ => ⟨_, rfl⟩, fun _ _ _ => ⟨_, rfl⟩⟩

/-- With an exception-free client, `_add_user_to_group` either succeeds or
raises exactly `AlreadyMemberError`. -/
theorem add_single_exc_free {C : ClientOps} (h : ExcFree C) (u g : String) (s : DirectoryState) :
    (_add_user_to_group C u g s).1 = none ∨
    (_add_user_to_group C u g s).1 = some .alreadyMember := by
  obtain ⟨b, hb⟩ := h.group_exists g s
  obtain ⟨s1, hc⟩ := h.create_group g s
  unfold _add_user_to_group
  cases b
  · obtain ⟨m, hm⟩ := h.get_group_members g s1
    by_cases hu : u ∈ m
    · simp [hb, hc, hm, hu]
    · obtain ⟨r, ha⟩ := h.add_user_to_group u g s1
      simp [hb, hc, hm, hu, ha]
  · obtain ⟨m, hm⟩ := h.get_group_members g s
    by_cases hu : u ∈ m
    · simp [hb, hm, hu]
    · obtain ⟨r, ha⟩ := h.add_user_to_group u g s
      simp [hb, hm, hu, ha]

/-- With an exception-free client, `_remove_user_from_group` either
succeeds or raises exactly `NotMemberError` or `GroupDoesNotExistError`. -/
theorem remove_single_exc_free {C : ClientOps} (h : ExcFree C) (u g : String)
    (s : DirectoryState) :
    (_remove_user_from_group C u g s).1 = none ∨
    (_remove_user_from_group C u g s).1 = some .notMember ∨
    (_remove_user_from_group C u g s).1 = some .groupDoesNotExist := by
  obtain ⟨b, hb⟩ := h.group_exists g s
  unfold _remove_user_from_group
  cases b
  · simp [hb]
  · obtain ⟨m, hm⟩ := h.get_group_members g s
    by_cases hu : u ∈ m
    · obtain ⟨r, hr⟩ := h.remove_user_from_group u g s
      simp [hb, hm, hu, hr]
    · simp [hb, hm, hu]

/-- With an exception-free client, the add loop never reaches its broad
except-clause: no callback runs, no outcome is `errorHandled`, and the
loop never raises. -/
theorem add_set_exc_free {C : ClientOps} (h : ExcFree C) (u : String) (groups : List String)
    (cb : Option Callback) (s : DirectoryState) :
    (add_user_to_group_set C u groups cb s).callbackRuns = [] ∧
    (∀ p ∈ (add_user_to_group_set C u groups cb s).outcomes, ∀ b, p.2 ≠ .errorHandled b) ∧
    (add_user_to_group_set C u groups cb s).raised = none := by
  induction groups generalizing s with
  | nil => simp [add_user_to_group_set]
  | cons g rest ih =>
    rw [add_user_to_group_set]
    obtain ⟨ih1, ih2, ih3⟩ := ih (_add_user_to_group C u g s).2.1
    rcases add_single_exc_free h u g s with h1 | h1 <;>
      · simp only [h1, addStepClass]
        refine ⟨by simpa using ih1, ?_, by simpa using ih3⟩
        intro p hp b
        simp only [List.mem_cons] at hp
        rcases hp with rfl | hp
        · simp
        · exact ih2 p hp b

/-- With an exception-free client, the remove loop never reaches its broad
except-clause. -/
theorem remove_set_exc_free {C : ClientOps} (h : ExcFree C) (u : String)
    (groups : List String) (cb : Option Callback) (s : DirectoryState) :
    (remove_user_from_group_set C u groups cb s).callbackRuns = [] ∧
    (∀ p ∈ (remove_user_from_group_set C u groups cb s).outcomes, ∀ b,
      p.2 ≠ .errorHandled b) ∧
    (remove_user_from_group_set C u groups cb s).raised = none := by
  induction groups generalizing s with
  | nil => simp [remove_user_from_group_set]
  | cons g rest ih =>
    rw [remove_user_from_group_set]
    obtain ⟨ih1, ih2, ih3⟩ := ih (_remove_user_from_group C u g s).2.1
    rcases remove_single_exc_free h u g s with h1 | h1 | h1 <;>
      · simp only [h1, removeStepClass]
        refine ⟨by simpa using ih1, ?_, by simpa using ih3⟩
        intro p hp b
        simp only [List.mem_cons] at hp
        rcases hp with rfl | hp
        · simp
        · exact ih2 p hp b

/-- Against the in-memory client, attempting to add a user who is already
a member raises `AlreadyMemberError` and leaves the membership list
untouched. -/
theorem add_single_memClient_already {u g : String} {s : DirectoryState}
    (hmem : (g, u) ∈ s.members) :
    (_add_user_to_group memClient u g s).1 = some .alreadyMember ∧
    (_add_user_to_group memClient u g s).2.1.members = s.members := by
  unfold _add_user_to_group
  by_cases hg : g ∈ s.groups
  · simp [memClient, hg, mem_memClient_members, hmem]
  · simp [memClient, hg, mem_memClient_members, hmem]

/-- Against the in-memory client, adding a user to a group that exists and
already holds the user returns exactly the already-member outcome with the
state unchanged. -/
theorem add_single_memClient_saturated {u g : String} {s : DirectoryState}
    (hg : g ∈ s.groups) (hmem : (g, u) ∈ s.members) :
    _add_user_to_group memClient u g s =
      (some .alreadyMember, s, [.groupExistsQ g, .getMembersQ g]) := by
  unfold _add_user_to_group
  simp [memClient, hg, mem_memClient_members, hmem]

/-- One in-memory add step makes the group exist with the user a member,
and only ever extends the group and membership lists. -/
theorem add_single_memClient_done (u g : String) (s : DirectoryState) :
    g ∈ (_add_user_to_group memClient u g s).2.1.groups ∧
    (g, u) ∈ (_add_user_to_group memClient u g s).2.1.members ∧
    (∀ g', g' ∈ s.groups → g' ∈ (_add_user_to_group memClient u g s).2.1.groups) ∧
    (∀ p, p ∈ s.members → p ∈ (_add_user_to_group memClient u g s).2.1.members) := by
  unfold _add_user_to_group
  by_cases hg : g ∈ s.groups <;> by_cases hm : (g, u) ∈ s.members <;>
    simp [memClient, hg, mem_memClient_members, hm] <;> aesop

/-- The in-memory add loop only extends the group and membership lists. -/
theorem add_set_memClient_mono (u : String) (groups : List String) (cb : Option Callback)
    (s : DirectoryState) :
    (∀ g', g' ∈ s.groups →
      g' ∈ (add_user_to_group_set memClient u groups cb s).state.groups) ∧
    (∀ p, p ∈ s.members →
      p ∈ (add_user_to_group_set memClient u groups cb s).state.members) := by
  induction groups generalizing s with
  | nil => rw [add_user_to_group_set]; exact ⟨fun _ h => h, fun _ h => h⟩
  | cons g rest ih =>
    rw [add_user_to_group_set]
    obtain ⟨-, -, hmg, hmm⟩ := add_single_memClient_done u g s
    obtain ⟨ihg, ihm⟩ := ih (_add_user_to_group memClient u g s).2.1
    rcases add_single_exc_free memClient_exc_free u g s with h1 | h1 <;>
      · simp only [h1, addStepClass]
        exact ⟨fun g' h => ihg g' (hmg g' h), fun p h => ihm p (hmm p h)⟩

/-- After the in-memory add loop, every listed group exists and holds the
user. -/
theorem add_set_memClient_done (u : String) (groups : List String) (cb : Option Callback)
    (s : DirectoryState) :
    ∀ g ∈ groups, g ∈ (add_user_to_group_set memClient u groups cb s).state.groups ∧
      (g, u) ∈ (add_user_to_group_set memClient u groups cb s).state.members := by
  induction groups generalizing s with
  | nil => simp
  | cons g0 rest ih =>
    intro g hg
    rw [add_user_to_group_set]
    simp only [List.mem_cons] at hg
    obtain ⟨hdg, hdm, -, -⟩ := add_single_memClient_done u g0 s
    obtain ⟨ihg, ihm⟩ := add_set_memClient_mono u rest cb (_add_user_to_group memClient u g0 s).2.1
    rcases add_single_exc_free memClient_exc_free u g0 s with h1 | h1 <;>
      · simp only [h1, addStepClass]
        rcases hg with rfl | hg
        · exact ⟨ihg g hdg, ihm (g, u) hdm⟩
        · exact ih (_add_user_to_group memClient u g0 s).2.1 g hg

/-- When every listed group already exists and holds the user, the
in-memory add loop changes nothing: every outcome is the benign
already-member warning, no membership mutation is issued and no callback
runs. -/
theorem add_set_memClient_saturated (u : String) (groups : List String) (cb : Option Callback)
    (s : DirectoryState) (h : ∀ g ∈ groups, g ∈ s.groups ∧ (g, u) ∈ s.members) :
    (add_user_to_group_set memClient u groups cb s).state = s ∧
    (add_user_to_group_set memClient u groups cb s).outcomes =
      groups.map (fun g => (g, IterOutcome.alreadyMemberWarn)) ∧
    (∀ c ∈ (add_user_to_group_set memClient u groups cb s).calls,
      c.isMembershipMutation = false) ∧
    (add_user_to_group_set memClient u groups cb s).callbackRuns = [] := by
  induction groups generalizing s with
  | nil => simp [add_user_to_group_set]
  | cons g rest ih =>
    rw [add_user_to_group_set]
    obtain ⟨hg, hm⟩ := h g (List.mem_cons_self g rest)
    rw [add_single_memClient_saturated hg hm]
    simp only [addStepClass]
    obtain ⟨ih1, ih2, ih3, ih4⟩ := ih s (fun g' hg' => h g' (List.mem_cons_of_mem g hg'))
    refine ⟨by simpa using ih1, by simpa using ih2, ?_, by simpa using ih4⟩
    intro c hc
    simp only [List.mem_append, List.mem_cons, List.not_mem_nil, or_false] at hc
    rcases hc with (rfl | rfl) | hc
    · rfl
    · rfl
    · exact ih3 c (by simpa using hc)

theorem falseClient_exc_free : ExcFree falseClient :=
  ⟨fun _ _ => ⟨_, rfl⟩, fun _ _ => ⟨_, rfl⟩, fun _ _ => ⟨_, rfl⟩,
   fun _ _ _ => ⟨_, rfl⟩, fun _ _ _ => ⟨_, rfl⟩⟩

theorem find_map_pending_list (l : List ProjectUserRec) (pk : Nat)
    (h : ∃ pu ∈ l, pu.pk = pk) :
    (((l.map (fun pu => if pu.pk = pk then { pu with status := "Pending" } else pu)).find?
        (fun pu => pu.pk = pk)).map (·.status)) = some "Pending" := by
  induction l with
  | nil => simp at h
  | cons x rest ih =>
    obtain ⟨pu, hmem, hpk⟩ := h
    simp only [List.map_cons]
    by_cases hx : x.pk = pk
    · rw [if_pos hx]
      rw [List.find?_cons_of_pos _ (by simpa using hx)]
      rfl
    · rw [if_neg hx]
      rw [List.find?_cons_of_neg _ (by simpa using hx)]
      rcases List.mem_cons.mp hmem with rfl | hmem'
      · exact absurd hpk hx
      · exact ih ⟨pu, hmem', hpk⟩

theorem find_map_error_list (l : List AllocationUserRec) (pk : Nat)
    (h : ∃ au ∈ l, au.pk = pk) :
    (((l.map (fun au => if au.pk = pk then { au with status := "Error" } else au)).find?
        (fun au => au.pk = pk)).map (·.status)) = some "Error" := by
  induction l with
  | nil => simp at h
  | cons x rest ih =>
    obtain ⟨au, hmem, hpk⟩ := h
    simp only [List.map_cons]
    by_cases hx : x.pk = pk
    · rw [if_pos hx]
      rw [List.find?_cons_of_pos _ (by simpa using hx)]
      rfl
    · rw [if_neg hx]
      rw [List.find?_cons_of_neg _ (by simpa using hx)]
      rcases List.mem_cons.mp hmem with rfl | hmem'
      · exact absurd hpk hx
      · exact ih ⟨au, hmem', hpk⟩

/-- `set_project_user_status_to_pending` sets the targeted association's
status to Pending whenever the association exists. -/
theorem set_project_user_status_to_pending_spec {R : Registry} {pk : Nat}
    (h : ∃ pu ∈ R.projectUsers, pu.pk = pk) :
    projectUserStatus (set_project_user_status_to_pending pk R) pk = some "Pending" := by
  unfold projectUserStatus set_project_user_status_to_pending
  exact find_map_pending_list R.projectUsers pk h

/-- coldfront's `set_allocation_user_status_to_error` sets the targeted
association's status to Error whenever the association exists. -/
theorem set_allocation_user_status_to_error_spec {R : Registry} {pk : Nat}
    (h : ∃ au ∈ R.allocationUsers, au.pk = pk) :
    allocationUserStatus (set_allocation_user_status_to_error pk R) pk = some "Error" := by
  unfold allocationUserStatus set_allocation_user_status_to_error
  exact find_map_error_list R.allocationUsers pk h

theorem any_attr_of_mem {attr g : String} {attrs : List (String × String)}
    (h : g ∈ getAttributeList attr attrs) : ∃ a ∈ attrs, a.1 = attr := by
  unfold getAttributeList at h
  simp only [List.mem_map, List.mem_filter, decide_eq_true_eq] at h
  obtain ⟨a, ⟨ha, hfa⟩, -⟩ := h
  exact ⟨a, ha, hfa⟩

/-- Membership in the protected set collected from the user's other
allocations: exactly the attribute values of some other Active allocation
holding an Active association for the user. -/
theorem mem_collect_other_allocation (R : Registry) (user attr : String) (cur : Nat)
    (g : String) :
    g ∈ collect_other_allocation_user_groups R user attr cur ↔
      ∃ B ∈ R.allocations, B.pk ≠ cur ∧ B.status = "Active" ∧
        (∃ bu ∈ R.allocationUsers, bu.allocationPk = B.pk ∧ bu.username = user ∧
          bu.status = "Active") ∧ g ∈ getAttributeList attr B.attributes := by
  unfold collect_other_allocation_user_groups
  rw [mem_pySet]
  simp only [List.mem_flatMap, List.mem_filter, decide_eq_true_eq, List.any_eq_true]
  constructor
  · rintro ⟨B, ⟨hB, hpk, hst, ⟨bu, hbu, h1, h2, h3⟩, -⟩, hg⟩
    exact ⟨B, hB, hpk, hst, ⟨bu, hbu, h1, h2, h3⟩, hg⟩
  · rintro ⟨B, hB, hpk, hst, ⟨bu, hbu, h1, h2, h3⟩, hg⟩
    obtain ⟨a, ha, hfa⟩ := any_attr_of_mem hg
    exact ⟨B, ⟨hB, hpk, hst, ⟨bu, hbu, h1, h2, h3⟩, ⟨a, ha, hfa⟩⟩, hg⟩

/-- The external collation only queries the directory. -/
theorem collate_external_calls_queries (C : ClientOps) (gs : List String)
    (s : DirectoryState) :
    ∀ c ∈ (collate_external_user_data C gs s).2, ∃ g, c = ClientCall.getMembersQ g := by
  induction gs with
  | nil => simp [collate_external_user_data]
  | cons g rest ih =>
    rw [collate_external_user_data]
    rcases hm : C.get_group_members g s with e | m <;>
      · rintro c hc
        rcases List.mem_cons.mp hc with rfl | hc
        · exact ⟨g, rfl⟩
        · exact ih c hc

/-! ## Claim theorems -/

/-- C2.  Differ correctness: for every collated entity record and every
group it declares, the Differ computes `missing_from_external` as the
record's member-username set minus the directory's members of that group
(empty set when the directory has no entry for the group) and
`missing_from_coldfront` as the reverse difference, and emits a Difference
Record for that (entity, group) pair if and only if at least one of the
two sets is non-empty. -/
theorem differ_emits_iff (entries : List EntityInfo) (external : List (String × List String)) :
    (∀ d : DiffRec, d ∈ compare_coldfront_to_external entries external ↔
      ∃ e ∈ entries, ∃ g ∈ e.groups,
        (pySetDiff e.users (externalGroupDict external g) ≠ [] ∨
         pySetDiff (externalGroupDict external g) e.users ≠ []) ∧
        d = { alignment := e.alignment, name := e.name, id := e.id, group := g,
              missing_from_external := pySetDiff e.users (externalGroupDict external g),
              missing_from_coldfront := pySetDiff (externalGroupDict external g) e.users }) ∧
    (∀ a b : List String, ∀ x, x ∈ pySetDiff a b ↔ x ∈ a ∧ x ∉ b) ∧
    (∀ g, (∀ p ∈ external, p.1 ≠ g) → externalGroupDict external g = []) := by
  refine ⟨?_, fun a b x => mem_pySetDiff, ?_⟩
  · intro d
    simp only [compare_coldfront_to_external, List.mem_flatMap, List.mem_filterMap]
    constructor
    · rintro ⟨e, he, g, hg, hsome⟩
      split at hsome
      · rename_i hcond
        refine ⟨e, he, g, hg, hcond, ?_⟩
        exact (Option.some.injEq _ _ ▸ hsome).symm
      · exact absurd hsome (by simp)
    · rintro ⟨e, he, g, hg, hcond, rfl⟩
      exact ⟨e, he, g, hg, by rw [if_pos hcond]⟩
  · intro g hall
    unfold externalGroupDict
    have hnone : external.reverse.find? (fun p => p.1 = g) = none := by
      rw [List.find?_eq_none]
      intro p hp
      simp [hall p (List.mem_reverse.mp hp)]
    rw [hnone]

theorem differ_emits_iff_witness :
    ({ alignment := true, name := "P1", id := 1, group := "g1"
       missing_from_external := ["a"], missing_from_coldfront := ["c"] } : DiffRec) ∈
      compare_coldfront_to_external
        [{ alignment := true, name := "P1", id := 1, groups := ["g1"], users := ["a", "b"] }]
        [("g1", ["b", "c"])] := by
  refine ((differ_emits_iff
    [{ alignment := true, name := "P1", id := 1, groups := ["g1"], users := ["a", "b"] }]
    [("g1", ["b", "c"])]).1 _).mpr ?_
  exact ⟨{ alignment := true, name := "P1", id := 1, groups := ["g1"], users := ["a", "b"] },
    by decide, "g1", by decide, by decide, by decide⟩

/-- C8.  Bulk-collation truncation: both collation functions return, for a
registry state with at least one qualifying entity (Active, carrying the
group attribute, passing the optional group filter and declaring at least
one group), a singleton list holding only the first qualifying entity's
record; entities rejected before it are skipped, and with no qualifying
entity the function falls off its loop and returns `None`. -/
theorem collate_returns_first_qualifying (R : Registry) (attr : String)
    (gf : Option String) :
    collate_project_user_data R attr gf =
      ((R.projects.filter (projectInBaseQuery attr ·)).find?
        (fun p => projectQualifiesP attr gf p)).map (fun p => [projectInfo R attr p]) ∧
    collate_allocation_user_data R attr gf =
      ((R.allocations.filter (allocationInBaseQuery attr ·)).find?
        (fun a => allocationQualifiesP attr gf a)).map (fun a => [allocationInfo R attr a]) := by
  constructor
  · unfold collate_project_user_data
    generalize (R.projects.filter (projectInBaseQuery attr ·)) = l
    induction l with
    | nil => rfl
    | cons p rest ih =>
      rw [collateProjectGo, List.find?_cons]
      by_cases hskip : groupFilterSkips gf (get_project_attribute_values_set p attr)
      · rw [if_pos hskip, ih]
        have : (decide (projectQualifiesP attr gf p)) = false := by
          simp [projectQualifiesP, hskip]
        rw [this]
      · rw [if_neg hskip]
        by_cases hempty : get_project_attribute_values_set p attr = []
        · rw [if_pos hempty, ih]
          have : (decide (projectQualifiesP attr gf p)) = false := by
            simp [projectQualifiesP, hempty]
          rw [this]
        · rw [if_neg hempty]
          have : (decide (projectQualifiesP attr gf p)) = true := by
            simp [projectQualifiesP, hskip, hempty]
          rw [this]
          rfl
  · unfold collate_allocation_user_data
    generalize (R.allocations.filter (allocationInBaseQuery attr ·)) = l
    induction l with
    | nil => rfl
    | cons a rest ih =>
      rw [collateAllocationGo, List.find?_cons]
      by_cases hskip : groupFilterSkips gf (pySet (getAttributeList attr a.attributes))
      · rw [if_pos hskip, ih]
        have : (decide (allocationQualifiesP attr gf a)) = false := by
          simp [allocationQualifiesP, hskip]
        rw [this]
      · rw [if_neg hskip]
        by_cases hempty : pySet (getAttributeList attr a.attributes) = []
        · rw [if_pos hempty, ih]
          have : (decide (allocationQualifiesP attr gf a)) = false := by
            simp [allocationQualifiesP, hempty]
          rw [this]
        · rw [if_neg hempty]
          have : (decide (allocationQualifiesP attr gf a)) = true := by
            simp [allocationQualifiesP, hskip, hempty]
          rw [this]
          rfl

/-- C3 (code bug).  Error-callback routing: the spec and the task
docstrings say an unexpected per-group failure moves the association to an
Error/Pending status via the supplied callback and the loop continues with
the next group.  In the source, however, `error_callback()` is invoked with
zero arguments while both wired callbacks
(`utils.set_project_user_status_to_pending` and coldfront core's
`set_allocation_user_status_to_error`) require the association pk: the
invocation raises `TypeError`, no status is ever set, the remaining groups
are not processed, and the exception propagates to the caller.  Evaluated
here on a directory client whose operations raise: both loops over
["g1", "g2"] abort after g1 with `TypeError`, an empty completed-callback
list, and g2 untouched. -/
theorem error_callback_typeerror_code_bug :
    Callback.callNoArgs .setProjectUserStatusToPending = some (.other "TypeError") ∧
    Callback.callNoArgs .setAllocationUserStatusToError = some (.other "TypeError") ∧
    add_user_to_group_set boomClient "a" ["g1", "g2"]
        (some .setProjectUserStatusToPending) { groups := [], members := [] } =
      { state := { groups := [], members := [] }
        calls := [.groupExistsQ "g1"]
        outcomes := [("g1", .errorCallbackRaised)]
        log := [(.error, "Failed adding user a to group g1")]
        callbackRuns := []
        raised := some (.other "TypeError") } ∧
    remove_user_from_group_set boomClient "a" ["g1", "g2"]
        (some .setAllocationUserStatusToError) { groups := [], members := [] } =
      { state := { groups := [], members := [] }
        calls := [.groupExistsQ "g1"]
        outcomes := [("g1", .errorCallbackRaised)]
        log := [(.error, "Failed removing user a from group g1")]
        callbackRuns := []
        raised := some (.other "TypeError") } ∧
    (∀ (R : Registry) (pk : Nat), (∃ pu ∈ R.projectUsers, pu.pk = pk) →
      projectUserStatus (set_project_user_status_to_pending pk R) pk = some "Pending") := by
  refine ⟨rfl, rfl, by decide, by decide, ?_⟩
  intro R pk h
  exact set_project_user_status_to_pending_spec h

theorem error_callback_typeerror_code_bug_witness :
    projectUserStatus
      (set_project_user_status_to_pending 5
        { projects := [], projectUsers := [⟨5, 1, "a", "Active"⟩],
          allocations := [], allocationUsers := [] }) 5 = some "Pending" :=
  error_callback_typeerror_code_bug.2.2.2.2
    { projects := [], projectUsers := [⟨5, 1, "a", "Active"⟩],
      allocations := [], allocationUsers := [] } 5
    ⟨⟨5, 1, "a", "Active"⟩, by simp, rfl⟩

/-- C5.  Add idempotence and benign AlreadyMember: against the in-memory
directory, adding a user already in a group raises AlreadyMemberError,
which is caught, logged at warning level, not routed to the error
callback, and mutates no membership; and running the add loop a second
time over the same group set from the state the first run produced leaves
the state identical, logs AlreadyMember for every group, issues no
membership mutation and runs no callback. -/
theorem add_already_member_idempotent :
    (∀ (u g : String) (rest : List String) (cb : Option Callback) (s : DirectoryState),
      (g, u) ∈ s.members →
        (_add_user_to_group memClient u g s).1 = some .alreadyMember ∧
        (_add_user_to_group memClient u g s).2.1.members = s.members ∧
        (add_user_to_group_set memClient u (g :: rest) cb s).outcomes =
          (g, IterOutcome.alreadyMemberWarn) ::
            (add_user_to_group_set memClient u rest cb
              (_add_user_to_group memClient u g s).2.1).outcomes ∧
        ((LogLevel.warning, "User " ++ u ++ " is already a member of group " ++ g) ∈
          (add_user_to_group_set memClient u (g :: rest) cb s).log) ∧
        (add_user_to_group_set memClient u (g :: rest) cb s).callbackRuns =
          (add_user_to_group_set memClient u rest cb
            (_add_user_to_group memClient u g s).2.1).callbackRuns) ∧
    (∀ (u : String) (groups : List String) (cb : Option Callback) (s : DirectoryState),
      (add_user_to_group_set memClient u groups cb
          (add_user_to_group_set memClient u groups cb s).state).state =
        (add_user_to_group_set memClient u groups cb s).state ∧
      (add_user_to_group_set memClient u groups cb
          (add_user_to_group_set memClient u groups cb s).state).outcomes =
        groups.map (fun g => (g, IterOutcome.alreadyMemberWarn)) ∧
      (∀ c ∈ (add_user_to_group_set memClient u groups cb
          (add_user_to_group_set memClient u groups cb s).state).calls,
        c.isMembershipMutation = false) ∧
      (add_user_to_group_set memClient u groups cb
          (add_user_to_group_set memClient u groups cb s).state).callbackRuns = []) := by
  constructor
  · intro u g rest cb s hmem
    obtain ⟨h1, h2⟩ := add_single_memClient_already hmem
    refine ⟨h1, h2, ?_, ?_, ?_⟩
    · rw [add_user_to_group_set, h1]
      simp [addStepClass]
    · rw [add_user_to_group_set, h1]
      simp [addStepClass]
    · rw [add_user_to_group_set, h1]
      simp [addStepClass]
  · intro u groups cb s
    exact add_set_memClient_saturated u groups cb _ (add_set_memClient_done u groups cb s)

theorem add_already_member_idempotent_witness :
    ("g1", "b") ∈ dirFix.members ∧
    (_add_user_to_group memClient "b" "g1" dirFix).1 = some .alreadyMember :=
  ⟨by decide, (add_already_member_idempotent.1 "b" "g1" [] none dirFix (by decide)).1⟩

/-- C7.  Benign removal outcomes: against the in-memory directory, removing
from a group absent from the directory raises GroupDoesNotExistError and
removing a user who is not a member raises NotMemberError; both are caught
in the remove loop, logged at warning level, skip only that group, trigger
no callback, leave the state unchanged, and the loop continues with the
remaining groups. -/
theorem benign_removal_outcomes :
    (∀ (u g : String) (rest : List String) (cb : Option Callback) (s : DirectoryState),
      g ∉ s.groups →
        _remove_user_from_group memClient u g s =
          (some .groupDoesNotExist, s, [.groupExistsQ g]) ∧
        remove_user_from_group_set memClient u (g :: rest) cb s =
          { state := (remove_user_from_group_set memClient u rest cb s).state
            calls := .groupExistsQ g :: (remove_user_from_group_set memClient u rest cb s).calls
            outcomes := (g, .groupMissingWarn) ::
              (remove_user_from_group_set memClient u rest cb s).outcomes
            log := (LogLevel.warning, "Group " ++ g ++ " does not exist in grouper") ::
              (remove_user_from_group_set memClient u rest cb s).log
            callbackRuns := (remove_user_from_group_set memClient u rest cb s).callbackRuns }) ∧
    (∀ (u g : String) (rest : List String) (cb : Option Callback) (s : DirectoryState),
      g ∈ s.groups → (g, u) ∉ s.members →
        _remove_user_from_group memClient u g s =
          (some .notMember, s, [.groupExistsQ g, .getMembersQ g]) ∧
        remove_user_from_group_set memClient u (g :: rest) cb s =
          { state := (remove_user_from_group_set memClient u rest cb s).state
            calls := .groupExistsQ g :: .getMembersQ g ::
              (remove_user_from_group_set memClient u rest cb s).calls
            outcomes := (g, .notMemberWarn) ::
              (remove_user_from_group_set memClient u rest cb s).outcomes
            log := (LogLevel.warning, "User " ++ u ++ " is not a member of group " ++ g) ::
              (remove_user_from_group_set memClient u rest cb s).log
            callbackRuns := (remove_user_from_group_set memClient u rest cb s).callbackRuns }) := by
  constructor
  · intro u g rest cb s hg
    have hstep : _remove_user_from_group memClient u g s =
        (some .groupDoesNotExist, s, [.groupExistsQ g]) := by
      unfold _remove_user_from_group
      simp [memClient, hg]
    refine ⟨hstep, ?_⟩
    rw [remove_user_from_group_set, hstep]
    simp [removeStepClass, (remove_set_exc_free memClient_exc_free u rest cb s).2.2]
  · intro u g rest cb s hg hm
    have hstep : _remove_user_from_group memClient u g s =
        (some .notMember, s, [.groupExistsQ g, .getMembersQ g]) := by
      unfold _remove_user_from_group
      simp [memClient, hg, mem_memClient_members, hm]
    refine ⟨hstep, ?_⟩
    rw [remove_user_from_group_set, hstep]
    simp [removeStepClass, (remove_set_exc_free memClient_exc_free u rest cb s).2.2]

theorem benign_removal_outcomes_witness :
    ("g2" ∉ dirFix.groups ∧
      _remove_user_from_group memClient "a" "g2" dirFix =
        (some .groupDoesNotExist, dirFix, [.groupExistsQ "g2"])) ∧
    ("g1" ∈ dirFix.groups ∧ ("g1", "a") ∉ dirFix.members ∧
      _remove_user_from_group memClient "a" "g1" dirFix =
        (some .notMember, dirFix, [.groupExistsQ "g1", .getMembersQ "g1"])) :=
  ⟨⟨by decide, (benign_removal_outcomes.1 "a" "g2" [] none dirFix (by decide)).1⟩,
   ⟨by decide, by decide,
    (benign_removal_outcomes.2 "a" "g1" [] none dirFix (by decide) (by decide)).1⟩⟩

/-- C10.  The engine ignores the boolean result of the client's mutation
operations: against a client whose add/remove return `False` without
raising (the Grouper client's IOError behaviour), the loops classify the
group as successfully processed, log at info level, leave the directory
unchanged, and invoke no callback; and with any exception-free client, no
outcome ever reaches the error path (so association statuses are only ever
touched when an exception is raised). -/
theorem false_client_result_ignored :
    (∀ (u g : String) (rest : List String) (cb : Option Callback) (s : DirectoryState),
      g ∈ s.groups → (g, u) ∉ s.members →
        _add_user_to_group falseClient u g s =
          (none, s, [.groupExistsQ g, .getMembersQ g, .addCall u g]) ∧
        add_user_to_group_set falseClient u (g :: rest) cb s =
          { state := (add_user_to_group_set falseClient u rest cb s).state
            calls := .groupExistsQ g :: .getMembersQ g :: .addCall u g ::
              (add_user_to_group_set falseClient u rest cb s).calls
            outcomes := (g, .ok) :: (add_user_to_group_set falseClient u rest cb s).outcomes
            log := (LogLevel.info, "Added user " ++ u ++ " to group " ++ g ++ " successfully") ::
              (add_user_to_group_set falseClient u rest cb s).log
            callbackRuns := (add_user_to_group_set falseClient u rest cb s).callbackRuns }) ∧
    (∀ (u g : String) (rest : List String) (cb : Option Callback) (s : DirectoryState),
      g ∈ s.groups → (g, u) ∈ s.members →
        _remove_user_from_group falseClient u g s =
          (none, s, [.groupExistsQ g, .getMembersQ g, .removeCall u g]) ∧
        remove_user_from_group_set falseClient u (g :: rest) cb s =
          { state := (remove_user_from_group_set falseClient u rest cb s).state
            calls := .groupExistsQ g :: .getMembersQ g :: .removeCall u g ::
              (remove_user_from_group_set falseClient u rest cb s).calls
            outcomes := (g, .ok) :: (remove_user_from_group_set falseClient u rest cb s).outcomes
            log := (LogLevel.info,
                "Removed user " ++ u ++ " from group " ++ g ++ " successfully") ::
              (remove_user_from_group_set falseClient u rest cb s).log
            callbackRuns := (remove_user_from_group_set falseClient u rest cb s).callbackRuns }) ∧
    (∀ (C : ClientOps), ExcFree C → ∀ (u : String) (groups : List String)
       (cb : Option Callback) (s : DirectoryState),
      (add_user_to_group_set C u groups cb s).callbackRuns = [] ∧
      (∀ p ∈ (add_user_to_group_set C u groups cb s).outcomes, ∀ b,
        p.2 ≠ .errorHandled b) ∧
      (remove_user_from_group_set C u groups cb s).callbackRuns = [] ∧
      (∀ p ∈ (remove_user_from_group_set C u groups cb s).outcomes, ∀ b,
        p.2 ≠ .errorHandled b)) := by
  refine ⟨?_, ?_, ?_⟩
  · intro u g rest cb s hg hm
    have hstep : _add_user_to_group falseClient u g s =
        (none, s, [.groupExistsQ g, .getMembersQ g, .addCall u g]) := by
      unfold _add_user_to_group
      simp [falseClient, memClient, hg, mem_memClient_members, hm]
    refine ⟨hstep, ?_⟩
    rw [add_user_to_group_set, hstep]
    simp [addStepClass, (add_set_exc_free falseClient_exc_free u rest cb s).2.2]
  · intro u g rest cb s hg hm
    have hstep : _remove_user_from_group falseClient u g s =
        (none, s, [.groupExistsQ g, .getMembersQ g, .removeCall u g]) := by
      unfold _remove_user_from_group
      simp [falseClient, memClient, hg, mem_memClient_members, hm]
    refine ⟨hstep, ?_⟩
    rw [remove_user_from_group_set, hstep]
    simp [removeStepClass, (remove_set_exc_free falseClient_exc_free u rest cb s).2.2]
  · intro C hC u groups cb s
    obtain ⟨ha1, ha2, -⟩ := add_set_exc_free hC u groups cb s
    obtain ⟨hr1, hr2, -⟩ := remove_set_exc_free hC u groups cb s
    exact ⟨ha1, ha2, hr1, hr2⟩

theorem false_client_result_ignored_witness :
    ("g1" ∈ dirFix.groups ∧ ("g1", "a") ∉ dirFix.members ∧
      _add_user_to_group falseClient "a" "g1" dirFix =
        (none, dirFix, [.groupExistsQ "g1", .getMembersQ "g1", .addCall "a" "g1"])) ∧
    (add_user_to_group_set falseClient "a" ["g1"] (some .setProjectUserStatusToPending)
        dirFix).callbackRuns = [] :=
  ⟨⟨by decide, by decide,
    (false_client_result_ignored.1 "a" "g1" [] none dirFix (by decide) (by decide)).1⟩,
   (false_client_result_ignored.2.2 falseClient falseClient_exc_free "a" ["g1"]
      (some .setProjectUserStatusToPending) dirFix).1⟩

/-- C1.  Shared-group protection: the protected set collected for an
allocation-user removal is exactly the union of the group attribute over
the user's other Active allocations with an Active association (Pending,
New or Removed grants contribute nothing); every directory removal the
task issues targets the user and a group declared on the current
allocation but outside the protected set; in particular, with an Active
association on another Active allocation declaring `g1`, no removal of
the user from `g1` is ever issued. -/
theorem shared_group_protection (R : Registry) (C : ClientOps) (attr : String)
    (user_pk : Nat) (s : DirectoryState) (au : AllocationUserRec) (A : AllocationRec)
    (hau : R.allocationUsers.find? (fun x => x.pk = user_pk) = some au)
    (hA : R.allocations.find? (fun a => a.pk = au.allocationPk) = some A) :
    (∀ g : String, g ∈ collect_other_allocation_user_groups R au.username attr A.pk ↔
      ∃ B ∈ R.allocations, B.pk ≠ A.pk ∧ B.status = "Active" ∧
        (∃ bu ∈ R.allocationUsers, bu.allocationPk = B.pk ∧ bu.username = au.username ∧
          bu.status = "Active") ∧ g ∈ getAttributeList attr B.attributes) ∧
    (∀ res s' v g, remove_allocation_user_from_group R C attr user_pk s = some (res, s') →
      ClientCall.removeCall v g ∈ res.taskCalls →
      v = au.username ∧ g ∈ getAttributeList attr A.attributes ∧
        g ∉ collect_other_allocation_user_groups R au.username attr A.pk) ∧
    (∀ res s' (B : AllocationRec) (bu : AllocationUserRec) (g1 : String),
      remove_allocation_user_from_group R C attr user_pk s = some (res, s') →
      B ∈ R.allocations → B.pk ≠ A.pk → B.status = "Active" →
      bu ∈ R.allocationUsers → bu.allocationPk = B.pk → bu.username = au.username →
      bu.status = "Active" → g1 ∈ getAttributeList attr B.attributes →
      ClientCall.removeCall au.username g1 ∉ res.taskCalls) := by
  have hchar := mem_collect_other_allocation R au.username attr A.pk
  have hcalls : ∀ res s' v g,
      remove_allocation_user_from_group R C attr user_pk s = some (res, s') →
      ClientCall.removeCall v g ∈ res.taskCalls →
      v = au.username ∧ g ∈ getAttributeList attr A.attributes ∧
        g ∉ collect_other_allocation_user_groups R au.username attr A.pk := by
    intro res s' v g hrun hc
    unfold remove_allocation_user_from_group at hrun
    simp only [hau, hA] at hrun
    split_ifs at hrun with h1 h2 h3 h4 <;>
      simp only [Option.some.injEq, Prod.mk.injEq] at hrun <;>
      obtain ⟨hres, hs⟩ := hrun <;> subst hres
    all_goals simp only [RemoveUserResult.taskCalls] at hc
    all_goals
      first
      | exact absurd hc (List.not_mem_nil _)
      | (obtain ⟨hv, hg⟩ := removeCall_of_remove_set hc
         rw [mem_pySetDiff] at hg
         exact ⟨hv, hg.1, hg.2⟩)
  refine ⟨hchar, hcalls, ?_⟩
  intro res s' B bu g1 hrun hB hpk hst hbu hbupk hbun hbust hg1 hc
  obtain ⟨-, -, hnot⟩ := hcalls res s' au.username g1 hrun hc
  exact hnot ((hchar g1).mpr ⟨B, hB, hpk, hst, ⟨bu, hbu, hbupk, hbun, hbust⟩, hg1⟩)

theorem shared_group_protection_witness :
    "g1" ∈ getAttributeList "ad_group"
      (⟨2, "r2", "Active", [("ad_group", "g1")]⟩ : AllocationRec).attributes ∧
    ClientCall.removeCall "u" "g1" ∉
      (RemoveUserResult.ran
        { state := { groups := ["g1", "g2"], members := [("g1", "u")] }
          calls := [.groupExistsQ "g2", .getMembersQ "g2", .removeCall "u" "g2"]
          outcomes := [("g2", .ok)]
          log := [(.info, "Removed user u from group g2 successfully")]
          callbackRuns := [] }).taskCalls :=
  ⟨by decide,
   (shared_group_protection regC1 memClient "ad_group" 10 dirC1
      ⟨10, 1, "u", "Removed"⟩ ⟨1, "r1", "Active", [("ad_group", "g1"), ("ad_group", "g2")]⟩
      (by decide) (by decide)).2.2
     (RemoveUserResult.ran
        { state := { groups := ["g1", "g2"], members := [("g1", "u")] }
          calls := [.groupExistsQ "g2", .getMembersQ "g2", .removeCall "u" "g2"]
          outcomes := [("g2", .ok)]
          log := [(.info, "Removed user u from group g2 successfully")]
          callbackRuns := [] })
     { groups := ["g1", "g2"], members := [("g1", "u")] }
     ⟨2, "r2", "Active", [("ad_group", "g1")]⟩ ⟨11, 2, "u", "Active"⟩ "g1"
     (by decide) (by decide) (by decide) (by decide) (by decide) (by decide)
     (by decide) (by decide) (by decide)⟩

/-- C4 (amended).  Removal preconditions: for the allocation-level removal
the allocation status must be in {Active, Pending, Inactive (Renewed)};
for the project-level removal the project status must merely not be
Archived (the code does not restrict it to the spec's three statuses);
in both, the association status must be exactly Removed.  On either
precondition failure the task returns normally as a logged no-op with the
directory untouched and no client call issued. -/
theorem removal_preconditions :
    (∀ (R : Registry) (C : ClientOps) (attr : String) (pk : Nat) (s : DirectoryState)
       (au : AllocationUserRec) (A : AllocationRec),
      R.allocationUsers.find? (fun x => x.pk = pk) = some au →
      R.allocations.find? (fun a => a.pk = au.allocationPk) = some A →
      (A.status ∉ (["Active", "Pending", "Inactive (Renewed)"] : List String) ∨
        au.status ≠ "Removed") →
      ∃ tag, remove_allocation_user_from_group R C attr pk s = some (tag, s) ∧
        (tag = RemoveUserResult.noopEntityStatus ∨ tag = RemoveUserResult.noopUserStatus) ∧
        tag.taskCalls = []) ∧
    (∀ (R : Registry) (C : ClientOps) (attr : String) (pk : Nat) (s : DirectoryState)
       (pu : ProjectUserRec) (P : ProjectRec),
      R.projectUsers.find? (fun x => x.pk = pk) = some pu →
      R.projects.find? (fun p => p.pk = pu.projectPk) = some P →
      (P.status = "Archived" ∨ pu.status ≠ "Removed") →
      ∃ tag, remove_project_user_from_group R C attr pk s = some (tag, s) ∧
        (tag = RemoveUserResult.noopEntityStatus ∨ tag = RemoveUserResult.noopUserStatus) ∧
        tag.taskCalls = []) := by
  constructor
  · intro R C attr pk s au A hau hA hcond
    unfold remove_allocation_user_from_group
    simp only [hau, hA]
    by_cases h1 : A.status ∉ (["Active", "Pending", "Inactive (Renewed)"] : List String)
    · rw [if_pos h1]
      exact ⟨.noopEntityStatus, rfl, Or.inl rfl, rfl⟩
    · rw [if_neg h1]
      have h2 : au.status ≠ "Removed" := hcond.resolve_left h1
      rw [if_pos h2]
      exact ⟨.noopUserStatus, rfl, Or.inr rfl, rfl⟩
  · intro R C attr pk s pu P hpu hP hcond
    unfold remove_project_user_from_group
    simp only [hpu, hP]
    by_cases h1 : P.status ∈ (["Archived"] : List String)
    · rw [if_pos h1]
      exact ⟨.noopEntityStatus, rfl, Or.inl rfl, rfl⟩
    · rw [if_neg h1]
      have h2 : pu.status ≠ "Removed" := by
        rcases hcond with hc | hc
        · exact absurd (by simp [hc]) h1
        · exact hc
      rw [if_pos h2]
      exact ⟨.noopUserStatus, rfl, Or.inr rfl, rfl⟩

/-- C4 counterexample: a project with status New — outside the claim's
{Active, Pending, Inactive (Renewed)} — and a Removed association.  The
claim says the removal must be a no-op; the code proceeds, issues a
directory removal call, and changes the directory. -/
theorem removal_preconditions_counterexample :
    "New" ∉ (["Active", "Pending", "Inactive (Renewed)"] : List String) ∧
    projC4.status = "New" ∧
    remove_project_user_from_group regC4 memClient "ad_group" 10 dirFix =
      some (.ran runC4, runC4.state) ∧
    ClientCall.removeCall "b" "g1" ∈ runC4.calls ∧
    runC4.state ≠ dirFix :=
  ⟨by decide, rfl, by decide, by decide, by decide⟩

theorem removal_preconditions_witness :
    (∃ tag, remove_allocation_user_from_group
        regC1 memClient "ad_group" 11 dirC1 = some (tag, dirC1) ∧
      (tag = RemoveUserResult.noopEntityStatus ∨ tag = RemoveUserResult.noopUserStatus) ∧
      tag.taskCalls = []) :=
  removal_preconditions.1 regC1 memClient "ad_group" 11 dirC1
    ⟨11, 2, "u", "Active"⟩ ⟨2, "r2", "Active", [("ad_group", "g1")]⟩
    (by decide) (by decide) (Or.inr (by decide))

/-- C6 (code bug).  Archive cascade: the spec says the Archived-only
cascade handles every project-user association — each with the
pending-status error callback and per-user protected-group exclusion —
and then the PI with no callback.  In the source, an unexpected failure in
any ordinary member's pass reaches `error_callback()` (`utils.py:103`),
whose zero-argument invocation of the one-argument wired callback raises
`TypeError`: the exception propagates out of the member's group-set run
and out of the cascade loop, so later members and the PI are never
processed.  Evaluated here on an Archived project with two member
associations and a PI, against a directory client whose operations raise:
the cascade aborts after the first member with `TypeError`, the second
association and the PI untouched. -/
theorem archive_cascade_abort_code_bug :
    projC6.status = "Archived" ∧
    (regC6.projectUsers.filter (fun pu => pu.projectPk = 3)).length = 2 ∧
    memberAbortC6.raised = some (.other "TypeError") ∧
    remove_all_project_users_from_groups regC6 boomClient "ad_group" 3
        { groups := [], members := [] } =
      some (.aborted [memberAbortC6] (.other "TypeError"), { groups := [], members := [] }) := by
  refine ⟨rfl, rfl, rfl, by decide⟩

/-- C9.  Dry-run frame property: with the dry-run flag set, the sync
command returns exactly the Difference Records computed from the collated
registry state and the directory queries, issues no membership-mutating
client call, and leaves both the registry and the directory exactly as
they were. -/
theorem dry_run_frame (R : Registry) (C : ClientOps) (attr : String) (lvl : Bool)
    (opts : SyncOptions) (s : DirectoryState) (h : HandleRun)
    (hdry : opts.dry_run = true)
    (hrun : handle R C attr lvl opts s = some h) :
    h.registry = R ∧ h.directory = s ∧
    (∀ c ∈ h.calls, c.isMembershipMutation = false) ∧
    ∃ entries,
      (if lvl then collate_project_user_data R attr opts.group
       else collate_allocation_user_data R attr opts.group) = some entries ∧
      h.differences = compare_coldfront_to_external entries
        (collate_external_user_data C (pySet (entries.flatMap (·.groups))) s).1 := by
  unfold handle at hrun
  rcases hc : (if lvl then collate_project_user_data R attr opts.group
               else collate_allocation_user_data R attr opts.group) with _ | entries
  · rw [hc] at hrun
    cases hrun
  · rw [hc] at hrun
    rw [hdry] at hrun
    simp only [if_true, Option.some.injEq] at hrun
    subst hrun
    refine ⟨rfl, rfl, ?_, entries, rfl, rfl⟩
    intro c hcall
    obtain ⟨g, rfl⟩ := collate_external_calls_queries C _ s c hcall
    rfl

theorem dry_run_frame_witness :
    ∃ h, handle regC9 memClient "ad_group" true
        { username := none, group := none, dry_run := true, sync_to := false } dirFix =
          some h ∧
      h.registry = regC9 ∧ h.directory = dirFix ∧
      (∀ c ∈ h.calls, c.isMembershipMutation = false) := by
  have hmain := dry_run_frame regC9 memClient "ad_group" true
    { username := none, group := none, dry_run := true, sync_to := false } dirFix
    handleRunC9 rfl (by decide)
  exact ⟨handleRunC9, by decide, hmain.1, hmain.2.1, hmain.2.2.1⟩

end UserMgmt
